import Mathlib

/-!
Verification development for the JWave reference-data generator scripts
(`scripts/generate_basic_reference.py` and `scripts/generate_reference_data.py`).

The scripts are straight-line Python producing text files.  We embed them
shallowly:

* Python floats are modelled as rationals (every IEEE-754 double is a
  rational; irrational library outputs such as `math.sqrt(2)` enter the
  model as parameters holding the rational double value).
* A file is modelled as its list of lines (each `f.write(... + "\n")` call
  in the scripts emits exactly one line).
* A run of a generator is modelled as the ordered list of
  (filename, lines) write events it performs.
* The external numeric library (numpy / scipy / pywavelets) is not part of
  this repository; its transforms enter the model as an abstract record of
  functions (`NumLib`), and `pywt.dwt` — the one call whose exceptions the
  script handles — is modelled as returning `Except`.
-/

/-! ### The real-number serializer: Python `f"{value:.16e}"`

`fmt16e q` renders `q` the way CPython's `%.16e` renders the double with
value `q`: a sign for negative values, one leading digit, a decimal point,
16 further mantissa digits (the mantissa is the value scaled into
`[10^16, 10^17)` and rounded to nearest, ties to even, with a carry into
the exponent when rounding reaches `10^17`), then `e`, an explicit
exponent sign, and the exponent padded to at least two digits. -/

/-- Round a rational to the nearest integer, ties to even (the rounding
CPython uses when converting a binary double to decimal digits). -/
def rnd16 (x : ℚ) : ℤ :=
  if 2 * Int.fract x < 1 then ⌊x⌋
  else if 1 < 2 * Int.fract x then ⌊x⌋ + 1
  else if Even ⌊x⌋ then ⌊x⌋ else ⌊x⌋ + 1

/-- The `k` low decimal digits of `n`, least significant first, as
characters (zero-padded up to length `k`). -/
def digitsFixed : ℕ → ℕ → List Char
  | 0, _ => []
  | k + 1, n => Nat.digitChar (n % 10) :: digitsFixed k (n / 10)

/-- The 17 decimal digits of a mantissa `m` (most significant first).
`fmt16e` only calls this with `10^16 ≤ m < 10^17`. -/
def mantissaChars (m : ℕ) : List Char :=
  (digitsFixed 17 m).reverse

/-- Mantissa digits and decimal exponent of a positive rational, with 17
significant digits, round-half-even, carrying into the exponent when the
rounded mantissa reaches `10^17`. -/
def sciParts (a : ℚ) : List Char × ℤ :=
  let e := Int.log 10 a
  let m := rnd16 (a * (10 : ℚ) ^ (16 - e))
  if m < 10 ^ 17 then (mantissaChars m.toNat, e) else (mantissaChars (10 ^ 16), e + 1)

/-- Exponent field of `%.16e`: explicit sign, value padded to at least two
digits (Python prints three or more digits only for `|exp| ≥ 100`). -/
def expChars (e : ℤ) : List Char :=
  (if e < 0 then '-' else '+') ::
    (if e.natAbs < 100 then (digitsFixed 2 e.natAbs).reverse else Nat.toDigits 10 e.natAbs)

/-- Python `f"{q:.16e}"` on the double with value `q`. -/
def fmt16e (q : ℚ) : String :=
  if q = 0 then "0.0000000000000000e+00"
  else
    let p := sciParts |q|
    let mant : List Char :=
      match p.1 with
      | [] => []
      | c :: cs => c :: '.' :: cs
    ⟨(if q < 0 then ['-'] else []) ++ mant ++ 'e' :: expChars p.2⟩

/-- Does a character list match the mantissa pattern
`d.dddddddddddddddde±dd` (one digit, a point, 16 digits, `e`, a sign, two
digits)? -/
def isSciMant (l : List Char) : Bool :=
  match l with
  | c :: '.' :: rest =>
      c.isDigit && rest.length == 20 && (rest.take 16).all (fun x => x.isDigit) &&
      (match rest.drop 16 with
       | ['e', s, d1, d2] => (s == '+' || s == '-') && d1.isDigit && d2.isDigit
       | _ => false)
  | _ => false

/-- Does a string match `d.dddddddddddddddde±dd`, allowing a leading minus
sign for negative values? -/
def isSci16 (s : String) : Bool :=
  match s.data with
  | [] => false
  | c :: rest => if c == '-' then isSciMant rest else isSciMant (c :: rest)

/-- The values the generators write all have decimal exponent magnitude
below 99, so their `%.16e` rendering carries a two-digit exponent. -/
def fitsTwoDigitExp (q : ℚ) : Prop :=
  q = 0 ∨ (Int.log 10 |q|).natAbs ≤ 98

theorem digitsFixed_length (k : ℕ) : ∀ n : ℕ, (digitsFixed k n).length = k := by
  induction k with
  | zero => intro n; rfl
  | succ k ih => intro n; simp [digitsFixed, ih]

theorem digitChar_isDigit {d : ℕ} (h : d < 10) : (Nat.digitChar d).isDigit = true := by
  interval_cases d <;> decide

theorem digitsFixed_all_digit (k : ℕ) :
    ∀ n : ℕ, ∀ c ∈ digitsFixed k n, c.isDigit = true := by
  induction k with
  | zero => intro n c hc; simp [digitsFixed] at hc
  | succ k ih =>
    intro n c hc
    simp only [digitsFixed, List.mem_cons] at hc
    rcases hc with rfl | hc
    · exact digitChar_isDigit (Nat.mod_lt _ (by norm_num))
    · exact ih _ c hc

theorem mantissaChars_shape (m : ℕ) :
    ∃ c cs, mantissaChars m = c :: cs ∧ cs.length = 16 ∧ c.isDigit = true ∧
      ∀ x ∈ cs, x.isDigit = true := by
  have hlen : (mantissaChars m).length = 17 := by
    simp [mantissaChars, digitsFixed_length]
  have hall : ∀ x ∈ mantissaChars m, x.isDigit = true := by
    intro x hx
    exact digitsFixed_all_digit 17 m x (List.mem_reverse.mp hx)
  rcases h : mantissaChars m with _ | ⟨c, cs⟩
  · rw [h] at hlen; simp at hlen
  · rw [h] at hlen hall
    refine ⟨c, cs, rfl, ?_, hall c (List.mem_cons_self _ _), fun x hx => hall x (List.mem_cons_of_mem _ hx)⟩
    simpa using hlen

theorem expChars_spec (e : ℤ) (h : e.natAbs < 100) :
    ∃ s d1 d2, expChars e = [s, d1, d2] ∧ (s == '+' || s == '-') = true ∧
      d1.isDigit = true ∧ d2.isDigit = true := by
  have h2 : (digitsFixed 2 e.natAbs).reverse.length = 2 := by
    simp [digitsFixed_length]
  have hall : ∀ c ∈ (digitsFixed 2 e.natAbs).reverse, c.isDigit = true := by
    intro c hc
    exact digitsFixed_all_digit 2 _ c (List.mem_reverse.mp hc)
  rcases hd : (digitsFixed 2 e.natAbs).reverse with _ | ⟨d1, _ | ⟨d2, rest⟩⟩
  · rw [hd] at h2; simp at h2
  · rw [hd] at h2; simp at h2
  · rw [hd] at h2 hall
    have hrest : rest = [] := List.length_eq_zero.mp (by simpa using h2)
    subst hrest
    refine ⟨if e < 0 then '-' else '+', d1, d2, ?_, ?_, ?_, ?_⟩
    · simp [expChars, if_pos h, hd]
    · by_cases he : e < 0 <;> simp [he]
    · exact hall d1 (by simp)
    · exact hall d2 (by simp)

theorem sciParts_spec (a : ℚ) :
    ∃ c cs e, sciParts a = (c :: cs, e) ∧ cs.length = 16 ∧ c.isDigit = true ∧
      (∀ x ∈ cs, x.isDigit = true) ∧
      (e = Int.log 10 a ∨ e = Int.log 10 a + 1) := by
  unfold sciParts
  dsimp only
  split
  · obtain ⟨c, cs, hm, hlen, hc, hcs⟩ :=
      mantissaChars_shape (rnd16 (a * (10 : ℚ) ^ (16 - Int.log 10 a))).toNat
    exact ⟨c, cs, Int.log 10 a, by rw [hm], hlen, hc, hcs, Or.inl rfl⟩
  · obtain ⟨c, cs, hm, hlen, hc, hcs⟩ := mantissaChars_shape (10 ^ 16)
    exact ⟨c, cs, Int.log 10 a + 1, by rw [hm], hlen, hc, hcs, Or.inr rfl⟩

theorem isDigit_ne_minus {c : Char} (h : c.isDigit = true) : (c == '-') = false := by
  by_cases hc : c = '-'
  · subst hc; exact absurd h (by decide)
  · exact beq_eq_false_iff_ne.mpr hc

theorem isSciMant_build {c : Char} {cs : List Char} {s d1 d2 : Char}
    (hc : c.isDigit = true) (hlen : cs.length = 16)
    (hcs : ∀ x ∈ cs, x.isDigit = true)
    (hs : (s == '+' || s == '-') = true) (hd1 : d1.isDigit = true)
    (hd2 : d2.isDigit = true) :
    isSciMant (c :: '.' :: (cs ++ ['e', s, d1, d2])) = true := by
  have htake : (cs ++ ['e', s, d1, d2]).take 16 = cs := by
    rw [← hlen]; exact List.take_left cs _
  have hdrop : (cs ++ ['e', s, d1, d2]).drop 16 = ['e', s, d1, d2] := by
    rw [← hlen]; exact List.drop_left cs _
  simp only [isSciMant, htake, hdrop, List.length_append, hlen]
  simp only [List.length_cons, List.length_nil]
  refine (Bool.and_eq_true _ _).mpr ⟨(Bool.and_eq_true _ _).mpr ⟨(Bool.and_eq_true _ _).mpr ⟨hc, by norm_num⟩, ?_⟩, ?_⟩
  · rw [List.all_eq_true]; intro x hx; exact hcs x hx
  · simp [hs, hd1, hd2]

/-- C1: every real number emitted by the serializers (`save_vector`,
`save_matrix`, `save_complex_matrix` all render scalars via `fmt16e`,
the model of Python's `f"{value:.16e}"`) is printed in lowercase
scientific notation matching `d.dddddddddddddddde±dd` — one leading
mantissa digit, a point, 16 further mantissa digits, `e`, an exponent
sign and a two-digit exponent — with a leading `-` for negative values,
whenever the value's decimal exponent fits in two digits (true of every
value the generators write). -/
theorem fmt16e_matches_sci16 (q : ℚ) (h : fitsTwoDigitExp q) :
    isSci16 (fmt16e q) = true := by
  rcases h with rfl | h
  · decide
  · by_cases hq : q = 0
    · subst hq; decide
    · obtain ⟨c, cs, e, hp, hlen, hc, hcs, he⟩ := sciParts_spec |q|
      have hexp : e.natAbs < 100 := by
        rcases he with rfl | rfl <;> omega
      obtain ⟨s, d1, d2, hec, hs, hd1, hd2⟩ := expChars_spec e hexp
      have hbody : fmt16e q =
          ⟨(if q < 0 then ['-'] else []) ++ (c :: '.' :: cs) ++ 'e' :: expChars e⟩ := by
        rw [fmt16e, if_neg hq]
        simp only [hp]
      rw [hbody]
      have hmant : isSciMant (c :: '.' :: (cs ++ ['e', s, d1, d2])) = true :=
        isSciMant_build hc hlen hcs hs hd1 hd2
      by_cases hneg : q < 0
      · simp only [isSci16, if_pos hneg]
        have : ((['-'] ++ (c :: '.' :: cs) ++ 'e' :: expChars e : List Char)) =
            '-' :: (c :: '.' :: (cs ++ ['e', s, d1, d2])) := by
          simp [hec]
        rw [this]
        simpa using hmant
      · simp only [isSci16, if_neg hneg]
        have : (([] ++ (c :: '.' :: cs) ++ 'e' :: expChars e : List Char)) =
            c :: '.' :: (cs ++ ['e', s, d1, d2]) := by
          simp [hec]
        rw [this]
        simp only [isSci16]
        rw [isDigit_ne_minus hc]
        simpa using hmant

/-- C1 witness: the zero written by the generators renders as
`0.0000000000000000e+00`, matching the pattern. -/
theorem fmt16e_matches_sci16_witness : isSci16 (fmt16e 0) = true :=
  fmt16e_matches_sci16 0 (Or.inl rfl)

/-! ### The serializers

Both scripts define `save_vector` identically; the full generator adds
`save_matrix` and `save_complex_matrix`.  A file is its list of lines.
Python's `if header:` writes the comment line when `header` is a
non-empty string (both `None` and `""` are falsy). -/

/-- A write event: target filename and the lines written. -/
abbrev Write := String × List String

/-- Python `save_vector(data, filename, header)`: one `# header` line when the
header is truthy, then one `%.16e` line per element, in order. -/
def save_vector (data : List ℚ) (header : Option String) : List String :=
  (match header with
   | some h => if h = "" then [] else ["# " ++ h]
   | none => []) ++ data.map fmt16e

/-- Python `save_matrix(data, filename, header)`: one line per row, elements
space-separated in `%.16e` form. -/
def save_matrix (data : List (List ℚ)) (header : Option String) : List String :=
  (match header with
   | some h => if h = "" then [] else ["# " ++ h]
   | none => []) ++ data.map (fun row => String.intercalate " " (row.map fmt16e))

/-- One `real,imag` pair in `%.16e` form (used by `save_complex_matrix`
and the complex FFT files). -/
def fmtComplexPair (v : ℚ × ℚ) : String :=
  fmt16e v.1 ++ "," ++ fmt16e v.2

/-- Python `save_complex_matrix(data, filename, header)`: one line per row,
`real,imag` pairs space-separated. -/
def save_complex_matrix (data : List (List (ℚ × ℚ))) (header : Option String) : List String :=
  (match header with
   | some h => if h = "" then [] else ["# " ++ h]
   | none => []) ++ data.map (fun row => String.intercalate " " (row.map fmtComplexPair))

/-- The filenames of a list of write events, in write order. -/
def writeNames (ws : List Write) : List String :=
  ws.map Prod.fst

/-- C2: `save_vector` emits exactly one line per element of the data, in
order, prefixed by exactly one `# header` line when a (non-empty) header
is given and by nothing otherwise; so the line count excluding the header
equals the length of the source sequence. -/
theorem save_vector_lines (data : List ℚ) (h : String) (hne : h ≠ "") :
    save_vector data (some h) = ("# " ++ h) :: data.map fmt16e ∧
    save_vector data none = data.map fmt16e ∧
    ((save_vector data (some h)).drop 1).length = data.length ∧
    (save_vector data none).length = data.length := by
  refine ⟨?_, ?_, ?_, ?_⟩ <;> simp [save_vector, hne]

/-- C2 witness: `save_vector` on a two-element sequence with a header. -/
theorem save_vector_lines_witness :
    save_vector [1 / 3, 2] (some "hdr") = ("# " ++ "hdr") :: [(1 : ℚ) / 3, 2].map fmt16e ∧
    save_vector [1 / 3, 2] none = [(1 : ℚ) / 3, 2].map fmt16e ∧
    ((save_vector [1 / 3, 2] (some "hdr")).drop 1).length = [(1 : ℚ) / 3, 2].length ∧
    (save_vector [(1 : ℚ) / 3, 2] none).length = [(1 : ℚ) / 3, 2].length :=
  save_vector_lines [1 / 3, 2] "hdr" (by decide)

/-! ### The basic generator's manual Haar transform

`generate_haar_reference` walks the signal two samples at a time and
appends `(a+b)/sqrt2` to the approximation list and `(a-b)/sqrt2` to the
detail list.  The loop is over any field so that the ideal statement can
instantiate the square root at the real `√2` while the serialized run
instantiates it at the rational double `math.sqrt(2)`. -/

/-- The pairwise loop of `generate_haar_reference`: for each adjacent
pair `(a, b)` at even index, approximation `(a+b)/sqrt2`, detail
`(a-b)/sqrt2`.  (On the odd-length tail the Python loop would throw an
IndexError; the scripts only call it on even-length signals.) -/
def haarStep {α : Type} [Field α] (sqrt2 : α) : List α → List α × List α
  | a :: b :: rest =>
      let p := haarStep sqrt2 rest
      ((a + b) / sqrt2 :: p.1, (a - b) / sqrt2 :: p.2)
  | _ => ([], [])

/-- C3: the manual single-level Haar transform of `[1,2,3,4,5,6,7,8]`
produces exactly the 4 approximation coefficients
`[3/√2, 7/√2, 11/√2, 15/√2]` and the 4 detail coefficients
`[-1/√2, -1/√2, -1/√2, -1/√2]`. -/
theorem haarStep_of_one_to_eight :
    haarStep (Real.sqrt 2) [1, 2, 3, 4, 5, 6, 7, 8] =
      ([3 / Real.sqrt 2, 7 / Real.sqrt 2, 11 / Real.sqrt 2, 15 / Real.sqrt 2],
       [-1 / Real.sqrt 2, -1 / Real.sqrt 2, -1 / Real.sqrt 2, -1 / Real.sqrt 2]) ∧
    (haarStep (Real.sqrt 2) [1, 2, 3, 4, 5, 6, 7, 8]).1.length = 4 ∧
    (haarStep (Real.sqrt 2) [1, 2, 3, 4, 5, 6, 7, 8]).2.length = 4 := by
  refine ⟨?_, ?_, ?_⟩ <;> norm_num [haarStep]

/-! ### The basic generator's FFT fixtures (closed forms, no library) -/

namespace Basic

/-- Output directory of `generate_basic_reference.py`. -/
def output_dir : String := "../src/test/resources/testdata"

/-- The Python `math` module as seen by the basic generator: `sqrt`,
`sin` and `pi` are double-valued, hence rationals in this model. -/
structure PyMath where
  sqrt : ℚ → ℚ
  sin : ℚ → ℚ
  pi : ℚ

/-- Python `signal = [1.0, ..., 8.0]`. -/
def signal : List ℚ := [1, 2, 3, 4, 5, 6, 7, 8]

/-- Python `dc_signal = [1.0] * 8`. -/
def dc_signal : List ℚ := List.replicate 8 1

/-- Python `dc_fft_real = [8.0] + [0.0] * 7` (DC component = sum of signal). -/
def dc_fft_real : List ℚ := [8] ++ List.replicate 7 0

/-- Python `dc_fft_imag = [0.0] * 8`. -/
def dc_fft_imag : List ℚ := List.replicate 8 0

/-- Python `impulse = [0.0] * 8; impulse[0] = 1.0`. -/
def impulse : List ℚ := (List.replicate 8 0).set 0 1

/-- Python `impulse_fft_real = [1.0] * 8` (FFT of impulse is all ones). -/
def impulse_fft_real : List ℚ := List.replicate 8 1

/-- Python `impulse_fft_imag = [0.0] * 8`. -/
def impulse_fft_imag : List ℚ := List.replicate 8 0

end Basic

/-- C4: the closed-form FFT fixtures of the basic generator: for the DC
signal `[1]×8` the written real part is `[8,0,0,0,0,0,0,0]`, whose first
entry is the sum of the signal, and the imaginary part is all zeros; for
the impulse signal `[1,0,...,0]` the written real part is all ones and
the imaginary part is all zeros. -/
theorem basic_fft_fixtures :
    Basic.dc_fft_real = [8, 0, 0, 0, 0, 0, 0, 0] ∧
    Basic.dc_fft_real.head? = some Basic.dc_signal.sum ∧
    Basic.dc_fft_imag = List.replicate 8 0 ∧
    Basic.impulse = [1, 0, 0, 0, 0, 0, 0, 0] ∧
    Basic.impulse_fft_real = List.replicate 8 1 ∧
    Basic.impulse_fft_imag = List.replicate 8 0 := by
  refine ⟨by decide, ?_, by decide, by decide, by decide, by decide⟩
  have hsum : Basic.dc_signal.sum = 8 := by
    norm_num [Basic.dc_signal, List.sum_replicate]
  rw [hsum]
  decide

/-! ### The full generator (`generate_reference_data.py`)

The script delegates every transform to numpy / scipy / pywavelets.
Those libraries are outside this repository, so they enter the model as
an abstract record of double-valued (hence rational-valued) functions.
`pywt.dwt` is the one call whose exceptions the script handles
(`generate_special_cases` wraps it in `try/except: pass`, and `main`
catches anything escaping `generate_dwt_reference`), so it is modelled
as returning `Except`; the remaining library calls are modelled total. -/

/-- A Python exception, as far as `main`'s two handlers distinguish
them: an `ImportError` or anything else. -/
inductive PyExc where
  | importError (msg : String)
  | other (msg : String)

/-- Python `pywt.Wavelet(name)`: the four filter banks of a wavelet family. -/
structure WaveletFilters where
  dec_lo : List ℚ
  dec_hi : List ℚ
  rec_lo : List ℚ
  rec_hi : List ℚ

/-- The external numeric library as used by `generate_reference_data.py`:
`np.sin`/`np.pi`, `scipy.fft.fft` on real and on complex input,
`pywt.dwt`, `pywt.wavedec`, `pywt.swt`, `scipy.signal.chirp`,
`scipy.signal.cwt` with the `morlet2` kernel (complex output),
elementwise `np.abs`/`np.angle` on complex values, and `pywt.Wavelet`
filter tables. -/
structure NumLib where
  sin : ℚ → ℚ
  pi : ℚ
  fft : List ℚ → List ℚ × List ℚ
  fftC : List (ℚ × ℚ) → List (ℚ × ℚ)
  dwt : String → List ℚ → Except PyExc (List ℚ × List ℚ)
  wavedec : String → List ℚ → ℕ → List (List ℚ)
  swt : String → List ℚ → ℕ → List (List ℚ × List ℚ)
  chirp : List ℚ → ℚ → ℚ → ℚ → List ℚ
  cwt : List ℚ → List ℚ → List (List (ℚ × ℚ))
  cabs : ℚ × ℚ → ℚ
  carg : ℚ × ℚ → ℚ
  wavelet : String → WaveletFilters

namespace Full

/-- Output directory of `generate_reference_data.py` (the same literal
as in the basic script). -/
def output_dir : String := "../src/test/resources/testdata"

/-- Python `np.array([1, 2, 3, 4, 5, 6, 7, 8])`, the DWT/MODWT test signal. -/
def sig8 : List ℚ := [1, 2, 3, 4, 5, 6, 7, 8]

/-- The explicit 8-sample complex test signal of `generate_fft_reference`. -/
def signal2 : List (ℚ × ℚ) :=
  [(1, 2), (3, 4), (5, 6), (7, 8), (9, 10), (11, 12), (13, 14), (15, 16)]

/-- Python `generate_fft_reference` (lines 48-77): sine FFT via `save_vector`,
then two complex files written line by line in `real,imag` form. -/
def generate_fft_reference (lib : NumLib) : List Write :=
  let t := (List.range 64).map (fun i => (i : ℚ) / 1000)
  let signal1 := t.map (fun x => lib.sin (2 * lib.pi * 50 * x))
  let fft1 := lib.fft signal1
  [("fft_sine_input.txt", save_vector signal1 (some "64-point sine wave at 50Hz, fs=1000Hz")),
   ("fft_sine_output_real.txt", save_vector fft1.1 (some "FFT real part")),
   ("fft_sine_output_imag.txt", save_vector fft1.2 (some "FFT imaginary part")),
   ("fft_complex_input.txt", "# Complex test signal" :: signal2.map fmtComplexPair),
   ("fft_complex_output.txt", "# FFT of complex signal" :: (lib.fftC signal2).map fmtComplexPair)]

/-- Python `generate_dwt_reference` (lines 79-104).  The `pywt.dwt` calls are
not guarded here, so an exception aborts the section (and, via `main`'s
handler, the run) keeping only the files already written. -/
def generate_dwt_reference (lib : NumLib) : List Write × Option PyExc :=
  match lib.dwt "haar" sig8 with
  | .error e => ([], some e)
  | .ok ch =>
    let w1 : List Write :=
      [("dwt_haar_input.txt", save_vector sig8 (some "Test signal [1,2,3,4,5,6,7,8]")),
       ("dwt_haar_approx.txt", save_vector ch.1 (some "Haar approximation coefficients")),
       ("dwt_haar_detail.txt", save_vector ch.2 (some "Haar detail coefficients"))]
    match lib.dwt "db4" sig8 with
    | .error e => (w1, some e)
    | .ok cd =>
      let w2 : List Write :=
        [("dwt_db4_approx.txt", save_vector cd.1 (some "Daubechies 4 approximation coefficients")),
         ("dwt_db4_detail.txt", save_vector cd.2 (some "Daubechies 4 detail coefficients"))]
      let w3 := (lib.wavedec "haar" sig8 3).enum.map (fun ic =>
        ("dwt_haar_multilevel_" ++ toString ic.1 ++ ".txt",
         save_vector ic.2 (some ("Haar multi-level decomposition level " ++ toString ic.1))))
      (w1 ++ w2 ++ w3, none)

/-- Python `generate_modwt_reference` (lines 106-124): `pywt.swt` at level 3
without approximation trimming; per level the detail file is written
before the approximation file, levels numbered from 1. -/
def generate_modwt_reference (lib : NumLib) : List Write :=
  ("modwt_haar_input.txt", save_vector sig8 (some "Test signal for MODWT")) ::
    (lib.swt "haar" sig8 3).enum.flatMap (fun iad =>
      [("modwt_haar_detail_level" ++ toString (iad.1 + 1) ++ ".txt",
        save_vector iad.2.2 (some ("MODWT Haar detail coefficients level " ++ toString (iad.1 + 1)))),
       ("modwt_haar_approx_level" ++ toString (iad.1 + 1) ++ ".txt",
        save_vector iad.2.1 (some ("MODWT Haar approximation coefficients level " ++ toString (iad.1 + 1))))])

/-- Python `np.array([1, ..., 8])`, the small CWT test signal. -/
def small_signal : List ℚ := [1, 2, 3, 4, 5, 6, 7, 8]

/-- Python `np.array([1, 2, 3, 4])`, the small CWT scales. -/
def small_scales : List ℚ := [1, 2, 3, 4]

/-- Python `generate_cwt_reference` (lines 126-148): Morlet CWT of a chirp
(`t = np.linspace(0, 1, 1000)`, scales 1..30) saved as magnitude and
phase matrices, plus a small complex-valued CWT. -/
def generate_cwt_reference (lib : NumLib) : List Write :=
  let t := (List.range 1000).map (fun i => (i : ℚ) / 999)
  let signal := lib.chirp t 10 1 100
  let widths := (List.range 30).map (fun i => (i : ℚ) + 1)
  let cwtm := lib.cwt signal widths
  [("cwt_chirp_input.txt", save_vector signal (some "Chirp signal 10-100Hz, 1 second, fs=1000Hz")),
   ("cwt_scales.txt", save_vector widths (some "CWT scales")),
   ("cwt_morlet_magnitude.txt", save_matrix (cwtm.map (fun row => row.map lib.cabs)) (some "CWT magnitude (Morlet)")),
   ("cwt_morlet_phase.txt", save_matrix (cwtm.map (fun row => row.map lib.carg)) (some "CWT phase (Morlet)")),
   ("cwt_small_input.txt", save_vector small_signal (some "Small test signal")),
   ("cwt_small_scales.txt", save_vector small_scales (some "Small test scales")),
   ("cwt_small_output.txt", save_complex_matrix (lib.cwt small_signal small_scales) (some "CWT output (complex)"))]

/-- The six wavelet families of `generate_wavelet_filter_reference`. -/
def waveletNames : List String := ["haar", "db2", "db4", "db8", "sym4", "coif2"]

/-- Python `generate_wavelet_filter_reference` (lines 150-168): four filter
files per family. -/
def generate_wavelet_filter_reference (lib : NumLib) : List Write :=
  waveletNames.flatMap (fun w =>
    [("filter_" ++ w ++ "_dec_lo.txt",
      save_vector (lib.wavelet w).dec_lo (some (w ++ " decomposition low-pass filter"))),
     ("filter_" ++ w ++ "_dec_hi.txt",
      save_vector (lib.wavelet w).dec_hi (some (w ++ " decomposition high-pass filter"))),
     ("filter_" ++ w ++ "_rec_lo.txt",
      save_vector (lib.wavelet w).rec_lo (some (w ++ " reconstruction low-pass filter"))),
     ("filter_" ++ w ++ "_rec_hi.txt",
      save_vector (lib.wavelet w).rec_hi (some (w ++ " reconstruction high-pass filter")))])

/-- The seven edge-case signals of `generate_special_cases`, in Python
dict insertion order. -/
def edgeSignals : List (String × List ℚ) :=
  [("empty", []),
   ("single", [42]),
   ("power_of_2", (List.range 16).map (fun i => (i : ℚ))),
   ("non_power_of_2", (List.range 13).map (fun i => (i : ℚ))),
   ("zeros", List.replicate 8 0),
   ("ones", List.replicate 8 1),
   ("impulse", [0, 0, 0, 1, 0, 0, 0, 0])]

/-- The writes of one edge case (lines 179-202): input and FFT files when
the signal is non-empty, then — when its length exceeds 1 — the Haar DWT
pair, with any `pywt.dwt` exception swallowed (`except: pass`), in which
case neither DWT file is written. -/
def edgeCaseWrites (lib : NumLib) (e : String × List ℚ) : List Write :=
  if 0 < e.2.length then
    [("edge_case_" ++ e.1 ++ "_input.txt", save_vector e.2 (some ("Edge case: " ++ e.1))),
     ("edge_case_" ++ e.1 ++ "_fft_real.txt", save_vector (lib.fft e.2).1 (some ("FFT real part of " ++ e.1))),
     ("edge_case_" ++ e.1 ++ "_fft_imag.txt", save_vector (lib.fft e.2).2 (some ("FFT imag part of " ++ e.1)))]
    ++ (if 1 < e.2.length then
          match lib.dwt "haar" e.2 with
          | .ok cd =>
              [("edge_case_" ++ e.1 ++ "_dwt_approx.txt", save_vector cd.1 (some ("DWT approx of " ++ e.1))),
               ("edge_case_" ++ e.1 ++ "_dwt_detail.txt", save_vector cd.2 (some ("DWT detail of " ++ e.1)))]
          | .error _ => []
        else [])
  else []

/-- Python `generate_special_cases` (lines 170-202). -/
def generate_special_cases (lib : NumLib) : List Write :=
  edgeSignals.flatMap (edgeCaseWrites lib)

/-- The whole generation body of `main`'s `try` block, in source order,
together with the first uncaught exception (if any); files written
before the exception persist. -/
def fullGen (lib : NumLib) : List Write × Option PyExc :=
  let w1 := generate_fft_reference lib
  match generate_dwt_reference lib with
  | (wd, some e) => (w1 ++ wd, some e)
  | (wd, none) =>
      (w1 ++ wd ++ generate_modwt_reference lib ++ generate_cwt_reference lib ++
        generate_wavelet_filter_reference lib ++ generate_special_cases lib, none)

/-- How `main` (lines 204-228) ends: normally, via the
`except ImportError` handler (which prints the
`pip install numpy scipy pywavelets` remediation and exits 1), or via
the generic `except Exception` handler (which prints the exception's
message and exits 1). -/
inductive MainExit where
  | normal
  | remediation
  | errorMsg (msg : String)

/-- Python `main`: run the generation body and dispatch on any escaping
exception. -/
def fullMain (lib : NumLib) : List Write × MainExit :=
  match fullGen lib with
  | (ws, none) => (ws, .normal)
  | (ws, some (.importError _)) => (ws, .remediation)
  | (ws, some (.other m)) => (ws, .errorMsg m)

/-- Whether the interpreter can resolve the module-level
`import numpy / scipy / pywt` statements (lines 7-12). -/
inductive DepsStatus where
  | available
  | missing (msg : String)

/-- Outcome of running the script as a process: either the module-level
imports fail — Python prints the ImportError traceback and exits 1
before `main` (and its handlers) ever run — or `main` runs. -/
inductive ScriptResult where
  | importTraceback (msg : String)
  | ran (writes : List Write) (exit : MainExit)

/-- Python `python generate_reference_data.py`: module-level imports run first;
only if they succeed does `main()` run. -/
def runScript (deps : DepsStatus) (lib : NumLib) : ScriptResult :=
  match deps with
  | .missing msg => .importTraceback msg
  | .available => .ran (fullMain lib).1 (fullMain lib).2

/-- The filenames the process wrote. -/
def ScriptResult.files : ScriptResult → List String
  | .importTraceback _ => []
  | .ran ws _ => writeNames ws

/-- The process exit status (Python exits 1 on an uncaught exception;
both handlers call `sys.exit(1)`). -/
def ScriptResult.exitCode : ScriptResult → ℕ
  | .importTraceback _ => 1
  | .ran _ .normal => 0
  | .ran _ .remediation => 1
  | .ran _ (.errorMsg _) => 1

/-- Whether the process printed the
`pip install numpy scipy pywavelets` remediation hint.  An uncaught
module-level ImportError prints only the interpreter traceback, never
the hint: the hint lives in `main`'s `except ImportError` handler, which
is not yet running when line 7 raises. -/
def ScriptResult.printsInstallHint : ScriptResult → Bool
  | .ran _ .remediation => true
  | _ => false

end Full

/-! ### Write lists and the filesystem

Each `save_vector`/`open(...).write` call opens the target with mode
`'w'` (create-or-truncate) and writes it whole, so the file a name holds
after a run is the last write to that name; names never written keep
their previous content. -/

/-- The content of the last write to `n` in `ws`, if any. -/
def lastWrite (ws : List Write) (n : String) : Option (List String) :=
  match ws with
  | [] => none
  | w :: rest =>
      match lastWrite rest n with
      | some c => some c
      | none => if w.1 = n then some w.2 else none

/-- A filesystem: filename to content (lines), `none` when absent. -/
def FS := String → Option (List String)

/-- Apply a run's write events to a filesystem. -/
def applyWrites (fs : FS) (ws : List Write) : FS :=
  fun n =>
    match lastWrite ws n with
    | some c => some c
    | none => fs n

theorem lastWrite_append (xs ys : List Write) (n : String) :
    lastWrite (xs ++ ys) n =
      (match lastWrite ys n with
       | some c => some c
       | none => lastWrite xs n) := by
  induction xs with
  | nil =>
    simp only [List.nil_append, lastWrite]
    cases lastWrite ys n <;> rfl
  | cons w xs ih =>
    show (match lastWrite (xs ++ ys) n with
          | some c => some c
          | none => if w.1 = n then some w.2 else none) = _
    rw [ih]
    show _ = (match lastWrite ys n with
              | some c => some c
              | none =>
                  match lastWrite xs n with
                  | some c => some c
                  | none => if w.1 = n then some w.2 else none)
    cases lastWrite ys n <;> cases lastWrite xs n <;> rfl

theorem lastWrite_eq_none_of_not_mem (ws : List Write) (n : String)
    (h : n ∉ writeNames ws) : lastWrite ws n = none := by
  induction ws with
  | nil => rfl
  | cons w ws ih =>
    simp only [writeNames, List.map_cons, List.mem_cons, not_or] at h
    simp only [lastWrite, ih (by simpa [writeNames] using h.2)]
    rw [if_neg (fun hw => h.1 hw.symm)]

theorem lastWrite_isSome_of_mem (ws : List Write) (n : String)
    (h : n ∈ writeNames ws) : (lastWrite ws n).isSome = true := by
  induction ws with
  | nil => simp [writeNames] at h
  | cons w ws ih =>
    simp only [writeNames, List.map_cons, List.mem_cons] at h
    simp only [lastWrite]
    cases hws : lastWrite ws n with
    | some c => rfl
    | none =>
      rcases h with h | h
      · simp [if_pos h.symm]
      · have := ih (by simpa [writeNames] using h)
        rw [hws] at this
        simp at this

/-- The content a run leaves at a name it wrote does not depend on the
prior filesystem state. -/
theorem applyWrites_indep (fs1 fs2 : FS) (ws : List Write) (n : String)
    (h : n ∈ writeNames ws) : applyWrites fs1 ws n = applyWrites fs2 ws n := by
  unfold applyWrites
  rcases ho : lastWrite ws n with _ | c
  · have := lastWrite_isSome_of_mem ws n h
    rw [ho] at this
    simp at this
  · rfl

/-- Re-applying the same write events is a no-op on the filesystem. -/
theorem applyWrites_idem (fs : FS) (ws : List Write) :
    applyWrites (applyWrites fs ws) ws = applyWrites fs ws := by
  funext n
  unfold applyWrites
  cases lastWrite ws n <;> rfl

theorem writeNames_append (xs ys : List Write) :
    writeNames (xs ++ ys) = writeNames xs ++ writeNames ys :=
  List.map_append _ xs ys

theorem writeNames_flatMap {α : Type} (l : List α) (f : α → List Write) :
    writeNames (l.flatMap f) = l.flatMap (fun a => writeNames (f a)) := by
  induction l with
  | nil => rfl
  | cons x xs ih => simp only [List.flatMap_cons, writeNames_append, ih]

theorem flatMap_sublist {α β : Type} (l : List α) (f g : α → List β)
    (h : ∀ a ∈ l, (f a).Sublist (g a)) : (l.flatMap f).Sublist (l.flatMap g) := by
  induction l with
  | nil => simp
  | cons x xs ih =>
    simp only [List.flatMap_cons]
    exact (h x (List.mem_cons_self _ _)).append
      (ih (fun a ha => h a (List.mem_cons_of_mem _ ha)))

/-! ### Which files the edge-case pass produces -/

/-- Upper bound on the filenames one edge case can produce: input and
FFT files when non-empty, the DWT pair additionally when length > 1. -/
def edgeCaseNamesUB (n : String) (s : List ℚ) : List String :=
  if 0 < s.length then
    ["edge_case_" ++ n ++ "_input.txt", "edge_case_" ++ n ++ "_fft_real.txt",
     "edge_case_" ++ n ++ "_fft_imag.txt"] ++
      (if 1 < s.length then
        ["edge_case_" ++ n ++ "_dwt_approx.txt", "edge_case_" ++ n ++ "_dwt_detail.txt"]
       else [])
  else []

theorem edgeCase_names_sublist (lib : NumLib) (e : String × List ℚ) :
    (writeNames (Full.edgeCaseWrites lib e)).Sublist (edgeCaseNamesUB e.1 e.2) := by
  unfold Full.edgeCaseWrites edgeCaseNamesUB
  by_cases h0 : 0 < e.2.length
  · rw [if_pos h0, if_pos h0, writeNames_append]
    refine List.Sublist.append (by simp [writeNames]) ?_
    by_cases h1 : 1 < e.2.length
    · rw [if_pos h1, if_pos h1]
      cases lib.dwt "haar" e.2 with
      | error err => exact List.nil_sublist _
      | ok cd => simp [writeNames]
    · rw [if_neg h1, if_neg h1]
      exact List.Sublist.refl _
  · rw [if_neg h0, if_neg h0]
    exact List.Sublist.refl _

/-- When `pywt.dwt` fails on an edge-case signal, that case contributes
at most its input and FFT files. -/
theorem edgeCase_names_sublist_err (lib : NumLib) (e : String × List ℚ) (err : PyExc)
    (hd : lib.dwt "haar" e.2 = Except.error err) :
    (writeNames (Full.edgeCaseWrites lib e)).Sublist
      ["edge_case_" ++ e.1 ++ "_input.txt", "edge_case_" ++ e.1 ++ "_fft_real.txt",
       "edge_case_" ++ e.1 ++ "_fft_imag.txt"] := by
  unfold Full.edgeCaseWrites
  by_cases h0 : 0 < e.2.length
  · rw [if_pos h0, writeNames_append]
    have h2 : writeNames
        (if 1 < e.2.length then
          match lib.dwt "haar" e.2 with
          | .ok cd =>
              [("edge_case_" ++ e.1 ++ "_dwt_approx.txt", save_vector cd.1 (some ("DWT approx of " ++ e.1))),
               ("edge_case_" ++ e.1 ++ "_dwt_detail.txt", save_vector cd.2 (some ("DWT detail of " ++ e.1)))]
          | .error _ => []
         else []) = [] := by
      by_cases h1 : 1 < e.2.length
      · rw [if_pos h1, hd]; rfl
      · rw [if_neg h1]; rfl
    rw [h2, List.append_nil]
    simp [writeNames]
  · rw [if_neg h0]
    exact List.nil_sublist _

/-- Upper bound on all filenames the edge-case pass can produce. -/
def allSpecialNamesUB : List String :=
  Full.edgeSignals.flatMap (fun e => edgeCaseNamesUB e.1 e.2)

theorem special_names_sublist (lib : NumLib) :
    (writeNames (Full.generate_special_cases lib)).Sublist allSpecialNamesUB := by
  unfold Full.generate_special_cases allSpecialNamesUB
  rw [writeNames_flatMap]
  exact flatMap_sublist _ _ _ (fun e _ => edgeCase_names_sublist lib e)

theorem mem_special_iff (lib : NumLib) (n : String) :
    n ∈ writeNames (Full.generate_special_cases lib) ↔
      ∃ e ∈ Full.edgeSignals, n ∈ writeNames (Full.edgeCaseWrites lib e) := by
  unfold Full.generate_special_cases
  rw [writeNames_flatMap]
  exact List.mem_flatMap

theorem not_mem_special (lib : NumLib) (tgt : String)
    (h : tgt ∉ allSpecialNamesUB) :
    tgt ∉ writeNames (Full.generate_special_cases lib) :=
  fun hm => h ((special_names_sublist lib).subset hm)

theorem input_mem_chunk (lib : NumLib) (e : String × List ℚ) (h0 : 0 < e.2.length) :
    ("edge_case_" ++ e.1 ++ "_input.txt") ∈ writeNames (Full.edgeCaseWrites lib e) := by
  unfold Full.edgeCaseWrites
  rw [if_pos h0, writeNames_append]
  exact List.mem_append.mpr (Or.inl (by simp [writeNames]))

theorem fft_real_mem_chunk (lib : NumLib) (e : String × List ℚ) (h0 : 0 < e.2.length) :
    ("edge_case_" ++ e.1 ++ "_fft_real.txt") ∈ writeNames (Full.edgeCaseWrites lib e) := by
  unfold Full.edgeCaseWrites
  rw [if_pos h0, writeNames_append]
  exact List.mem_append.mpr (Or.inl (by simp [writeNames]))

theorem fft_imag_mem_chunk (lib : NumLib) (e : String × List ℚ) (h0 : 0 < e.2.length) :
    ("edge_case_" ++ e.1 ++ "_fft_imag.txt") ∈ writeNames (Full.edgeCaseWrites lib e) := by
  unfold Full.edgeCaseWrites
  rw [if_pos h0, writeNames_append]
  exact List.mem_append.mpr (Or.inl (by simp [writeNames]))

theorem dwt_mem_chunk (lib : NumLib) (e : String × List ℚ) (cd : List ℚ × List ℚ)
    (h1 : 1 < e.2.length) (hd : lib.dwt "haar" e.2 = Except.ok cd) :
    ("edge_case_" ++ e.1 ++ "_dwt_approx.txt") ∈ writeNames (Full.edgeCaseWrites lib e) ∧
    ("edge_case_" ++ e.1 ++ "_dwt_detail.txt") ∈ writeNames (Full.edgeCaseWrites lib e) := by
  unfold Full.edgeCaseWrites
  rw [if_pos (by omega : 0 < e.2.length), if_pos h1, hd, writeNames_append]
  constructor
  · exact List.mem_append.mpr (Or.inr (by simp [writeNames]))
  · exact List.mem_append.mpr (Or.inr (by simp [writeNames]))

/-- C5: the edge-case pass of the full generator produces no files at all
for the empty signal; the input file and both FFT files but no DWT files
for the single-sample signal; and, for every edge-case signal of length
greater than 1 whose Haar DWT call succeeds, the input file, both FFT
files and both Haar one-level DWT files. -/
theorem edge_case_file_production (lib : NumLib) :
    ("edge_case_empty_input.txt" ∉ writeNames (Full.generate_special_cases lib) ∧
     "edge_case_empty_fft_real.txt" ∉ writeNames (Full.generate_special_cases lib) ∧
     "edge_case_empty_fft_imag.txt" ∉ writeNames (Full.generate_special_cases lib) ∧
     "edge_case_empty_dwt_approx.txt" ∉ writeNames (Full.generate_special_cases lib) ∧
     "edge_case_empty_dwt_detail.txt" ∉ writeNames (Full.generate_special_cases lib)) ∧
    ("edge_case_single_input.txt" ∈ writeNames (Full.generate_special_cases lib) ∧
     "edge_case_single_fft_real.txt" ∈ writeNames (Full.generate_special_cases lib) ∧
     "edge_case_single_fft_imag.txt" ∈ writeNames (Full.generate_special_cases lib) ∧
     "edge_case_single_dwt_approx.txt" ∉ writeNames (Full.generate_special_cases lib) ∧
     "edge_case_single_dwt_detail.txt" ∉ writeNames (Full.generate_special_cases lib)) ∧
    (∀ name sig cd, (name, sig) ∈ Full.edgeSignals → 1 < sig.length →
      lib.dwt "haar" sig = Except.ok cd →
      ("edge_case_" ++ name ++ "_input.txt") ∈ writeNames (Full.generate_special_cases lib) ∧
      ("edge_case_" ++ name ++ "_fft_real.txt") ∈ writeNames (Full.generate_special_cases lib) ∧
      ("edge_case_" ++ name ++ "_fft_imag.txt") ∈ writeNames (Full.generate_special_cases lib) ∧
      ("edge_case_" ++ name ++ "_dwt_approx.txt") ∈ writeNames (Full.generate_special_cases lib) ∧
      ("edge_case_" ++ name ++ "_dwt_detail.txt") ∈ writeNames (Full.generate_special_cases lib)) := by
  refine ⟨⟨?_, ?_, ?_, ?_, ?_⟩, ⟨?_, ?_, ?_, ?_, ?_⟩, ?_⟩
  · exact not_mem_special lib _ (by decide)
  · exact not_mem_special lib _ (by decide)
  · exact not_mem_special lib _ (by decide)
  · exact not_mem_special lib _ (by decide)
  · exact not_mem_special lib _ (by decide)
  · exact (mem_special_iff lib _).mpr ⟨("single", [42]), by decide, input_mem_chunk lib _ (by decide)⟩
  · exact (mem_special_iff lib _).mpr ⟨("single", [42]), by decide, fft_real_mem_chunk lib _ (by decide)⟩
  · exact (mem_special_iff lib _).mpr ⟨("single", [42]), by decide, fft_imag_mem_chunk lib _ (by decide)⟩
  · exact not_mem_special lib _ (by decide)
  · exact not_mem_special lib _ (by decide)
  · intro name sig cd hmem hlen hd
    have h0 : 0 < sig.length := by omega
    exact ⟨(mem_special_iff lib _).mpr ⟨(name, sig), hmem, input_mem_chunk lib _ h0⟩,
           (mem_special_iff lib _).mpr ⟨(name, sig), hmem, fft_real_mem_chunk lib _ h0⟩,
           (mem_special_iff lib _).mpr ⟨(name, sig), hmem, fft_imag_mem_chunk lib _ h0⟩,
           (mem_special_iff lib _).mpr ⟨(name, sig), hmem, (dwt_mem_chunk lib _ cd hlen hd).1⟩,
           (mem_special_iff lib _).mpr ⟨(name, sig), hmem, (dwt_mem_chunk lib _ cd hlen hd).2⟩⟩

/-- A trivial instantiation of the external library, with every
`pywt.dwt` call succeeding. -/
def libW : NumLib :=
  ⟨fun x => x, 0, fun s => (s, s), fun s => s, fun _ _ => Except.ok ([], []),
   fun _ _ _ => [[], [], [], []], fun _ _ _ => [([], []), ([], []), ([], [])],
   fun t _ _ _ => t, fun _ _ => [], fun _ => 0, fun _ => 0,
   fun _ => ⟨[0, 0, 0, 0], [0, 0, 0, 0], [0, 0, 0, 0], [0, 0, 0, 0]⟩⟩

/-- C5 witness: with a library whose DWT succeeds, the zeros edge case
(length 8) produces its DWT approximation file. -/
theorem edge_case_file_production_witness :
    ("edge_case_" ++ "zeros" ++ "_dwt_approx.txt") ∈
      writeNames (Full.generate_special_cases libW) :=
  ((edge_case_file_production libW).2.2 "zeros" (List.replicate 8 0) ([], [])
    (by decide) (by decide) rfl).2.2.2.1

/-- C6: when `pywt.dwt` raises on an edge-case signal of length greater
than 1, the exception is swallowed: neither DWT file for that case is
produced, every (non-empty) edge case still gets its input file (the
loop continues), and — provided the unguarded DWT calls of
`generate_dwt_reference` succeed — `main` still finishes normally (no
error is reported). -/
theorem edge_case_dwt_failure_swallowed (lib : NumLib) (name : String) (sig : List ℚ)
    (err : PyExc) (hmem : (name, sig) ∈ Full.edgeSignals) (hlen : 1 < sig.length)
    (hd : lib.dwt "haar" sig = Except.error err) :
    ("edge_case_" ++ name ++ "_dwt_approx.txt") ∉ writeNames (Full.generate_special_cases lib) ∧
    ("edge_case_" ++ name ++ "_dwt_detail.txt") ∉ writeNames (Full.generate_special_cases lib) ∧
    (∀ nm2 s2, (nm2, s2) ∈ Full.edgeSignals → 0 < s2.length →
      ("edge_case_" ++ nm2 ++ "_input.txt") ∈ writeNames (Full.generate_special_cases lib)) ∧
    (∀ cd cd', lib.dwt "haar" Full.sig8 = Except.ok cd →
      lib.dwt "db4" Full.sig8 = Except.ok cd' →
      (Full.fullMain lib).2 = Full.MainExit.normal) := by
  have hnd : ∀ tgt, tgt ∈ ["edge_case_" ++ name ++ "_dwt_approx.txt",
      "edge_case_" ++ name ++ "_dwt_detail.txt"] →
      tgt ∉ writeNames (Full.generate_special_cases lib) := by
    intro tgt htgt hin
    obtain ⟨e', he', hn⟩ := (mem_special_iff lib tgt).mp hin
    simp only [List.mem_cons, List.not_mem_nil, or_false] at htgt
    simp only [Full.edgeSignals, List.mem_cons, List.not_mem_nil, or_false] at he'
    have hmem2 := hmem
    simp only [Full.edgeSignals, List.mem_cons, List.not_mem_nil, or_false,
      Prod.mk.injEq] at hmem2
    rcases hmem2 with ⟨rfl, rfl⟩ | ⟨rfl, rfl⟩ | ⟨rfl, rfl⟩ | ⟨rfl, rfl⟩ | ⟨rfl, rfl⟩ |
      ⟨rfl, rfl⟩ | ⟨rfl, rfl⟩ <;>
    first
      | exact absurd hlen (by decide)
      | (rcases htgt with rfl | rfl <;>
         rcases he' with rfl | rfl | rfl | rfl | rfl | rfl | rfl <;>
         first
           | exact absurd ((edgeCase_names_sublist_err lib _ err hd).subset hn) (by decide)
           | exact absurd ((edgeCase_names_sublist lib _).subset hn) (by decide))
  refine ⟨hnd _ (by simp), hnd _ (by simp), ?_, ?_⟩
  · intro nm2 s2 hm2 h02
    exact (mem_special_iff lib _).mpr ⟨(nm2, s2), hm2, input_mem_chunk lib _ h02⟩
  · intro cd cd' hh hb
    simp only [Full.fullMain, Full.fullGen, Full.generate_dwt_reference, hh, hb]

/-- A library instantiation whose `pywt.dwt` raises exactly on the
all-zero signal of length 8 and succeeds elsewhere. -/
def libE : NumLib :=
  ⟨fun x => x, 0, fun s => (s, s), fun s => s,
   fun _ s => if s = List.replicate 8 0 then Except.error (PyExc.other "boom")
              else Except.ok ([], []),
   fun _ _ _ => [[], [], [], []], fun _ _ _ => [([], []), ([], []), ([], [])],
   fun t _ _ _ => t, fun _ _ => [], fun _ => 0, fun _ => 0,
   fun _ => ⟨[0, 0, 0, 0], [0, 0, 0, 0], [0, 0, 0, 0], [0, 0, 0, 0]⟩⟩

/-- C6 witness: with a library whose DWT raises on the zeros edge case,
that case's DWT approximation file is not produced. -/
theorem edge_case_dwt_failure_swallowed_witness :
    ("edge_case_" ++ "zeros" ++ "_dwt_approx.txt") ∉
      writeNames (Full.generate_special_cases libE) :=
  (edge_case_dwt_failure_swallowed libE "zeros" (List.replicate 8 0) (PyExc.other "boom")
    (by decide) (by decide) rfl).1

/-- C7 (behaviour at the failing input): when the numeric dependency is
missing, the module-level `import numpy` at line 7 raises before
`main()` — and hence before its `except ImportError` handler — runs, so
the process writes no files and exits 1, but the
`pip install numpy scipy pywavelets` remediation message is never
printed (only the interpreter's traceback is).  This contradicts the
claimed remediation diagnostic. -/
theorem missing_dependency_prints_no_hint (msg : String) (lib : NumLib) :
    (Full.runScript (Full.DepsStatus.missing msg) lib).files = [] ∧
    (Full.runScript (Full.DepsStatus.missing msg) lib).exitCode = 1 ∧
    (Full.runScript (Full.DepsStatus.missing msg) lib).printsInstallHint = false :=
  ⟨rfl, rfl, rfl⟩

theorem mem_of_lastWrite_some (ws : List Write) (n : String) (c : List String)
    (h : lastWrite ws n = some c) : n ∈ writeNames ws := by
  induction ws with
  | nil => simp [lastWrite] at h
  | cons w ws ih =>
    simp only [lastWrite] at h
    simp only [writeNames, List.map_cons, List.mem_cons]
    cases hws : lastWrite ws n with
    | some c2 =>
      exact Or.inr (by simpa [writeNames] using ih (by rw [hws] at h ⊢; exact h))
    | none =>
      rw [hws] at h
      by_cases hw : w.1 = n
      · exact Or.inl hw.symm
      · rw [if_neg hw] at h; exact absurd h (by simp)

/-! ### The basic generator's run (`generate_basic_reference.py`) -/

namespace Basic

/-- Source line 46: `constant_signal = [5.0] * 8`. -/
def constant_signal : List ℚ := List.replicate 8 5

/-- Source line 50: `linear_signal = [float(i) for i in range(8)]`. -/
def linear_signal : List ℚ := (List.range 8).map (fun i => (i : ℚ))

/-- Source lines 66-68: `sine_signal[i] = math.sin(2 * math.pi * i / 8)`. -/
def sine_signal (m : PyMath) : List ℚ :=
  (List.range 8).map (fun i => m.sin (2 * m.pi * (i : ℚ) / 8))

/-- Source lines 100-105: the Daubechies-4 decomposition low-pass taps,
literal constants from the script (modelled by their decimal values). -/
def db4_dec_lo : List ℚ :=
  [0.48296291314469025, 0.83651630373746899, 0.22414386804185735, -0.12940952255092145]

/-- Source lines 106-111: the Daubechies-4 decomposition high-pass taps. -/
def db4_dec_hi : List ℚ :=
  [-0.12940952255092145, -0.22414386804185735, 0.83651630373746899, -0.48296291314469025]

/-- Section `generate_haar_reference` (lines 24-50): its five writes in
order.  The manual transform divides by the double `math.sqrt(2)`. -/
def generate_haar_reference (m : PyMath) : List Write :=
  [("haar_simple_input.txt", save_vector signal (some "Simple test signal [1,2,3,4,5,6,7,8]")),
   ("haar_level1_approx_manual.txt",
    save_vector (haarStep (m.sqrt 2) signal).1 (some "Haar level 1 approximation (manual calc)")),
   ("haar_level1_detail_manual.txt",
    save_vector (haarStep (m.sqrt 2) signal).2 (some "Haar level 1 detail (manual calc)")),
   ("haar_constant_input.txt", save_vector constant_signal (some "Constant signal [5,5,5,5,5,5,5,5]")),
   ("haar_linear_input.txt", save_vector linear_signal (some "Linear signal [0,1,2,3,4,5,6,7]"))]

/-- Section `generate_fft_reference` (lines 52-81): its seven writes in
order. -/
def generate_fft_reference (m : PyMath) : List Write :=
  [("fft_dc_input.txt", save_vector dc_signal (some "DC signal (all ones)")),
   ("fft_dc_output_real.txt", save_vector dc_fft_real (some "FFT of DC signal (real part)")),
   ("fft_dc_output_imag.txt", save_vector dc_fft_imag (some "FFT of DC signal (imaginary part)")),
   ("fft_sine_simple_input.txt", save_vector (sine_signal m) (some "One cycle sine wave over 8 points")),
   ("fft_impulse_input.txt", save_vector impulse (some "Impulse signal")),
   ("fft_impulse_output_real.txt", save_vector impulse_fft_real (some "FFT of impulse (real)")),
   ("fft_impulse_output_imag.txt", save_vector impulse_fft_imag (some "FFT of impulse (imag)"))]

/-- Section `generate_wavelet_filters` (lines 83-117): its seven writes
in order; `filter_db2_dec_lo.txt` receives the very same 2-tap Haar
low-pass list (`haar_dec_lo`, "Daubechies 2 = Haar"). -/
def generate_wavelet_filters (m : PyMath) : List Write :=
  [("filter_haar_dec_lo.txt",
    save_vector [1 / m.sqrt 2, 1 / m.sqrt 2] (some "Haar decomposition low-pass")),
   ("filter_haar_dec_hi.txt",
    save_vector [1 / m.sqrt 2, -1 / m.sqrt 2] (some "Haar decomposition high-pass")),
   ("filter_haar_rec_lo.txt",
    save_vector [1 / m.sqrt 2, 1 / m.sqrt 2] (some "Haar reconstruction low-pass")),
   ("filter_haar_rec_hi.txt",
    save_vector [-1 / m.sqrt 2, 1 / m.sqrt 2] (some "Haar reconstruction high-pass")),
   ("filter_db2_dec_lo.txt",
    save_vector [1 / m.sqrt 2, 1 / m.sqrt 2] (some "Daubechies 2 = Haar")),
   ("filter_db4_dec_lo.txt", save_vector db4_dec_lo (some "Daubechies 4 decomposition low-pass")),
   ("filter_db4_dec_hi.txt", save_vector db4_dec_hi (some "Daubechies 4 decomposition high-pass"))]

/-- Section `generate_test_parameters` (lines 119-133): the fixed
`key=value` parameter file, written line by line. -/
def cwt_params_lines : List String :=
  ["# CWT test parameters", "sampling_rate=1000.0", "signal_length=256",
   "num_scales=20", "scale_min=1.0", "scale_max=50.0"]

/-- The single write of `generate_test_parameters`. -/
def generate_test_parameters : List Write :=
  [("cwt_test_params.txt", cwt_params_lines)]

/-- All writes of one run of the basic generator's `main` (lines
134-148), in order. -/
def basicWrites (m : PyMath) : List Write :=
  generate_haar_reference m ++ generate_fft_reference m ++
    generate_wavelet_filters m ++ generate_test_parameters

end Basic

/-- C8: within a single run, no two writes target the same path: the
basic generator's 20 filenames are pairwise distinct, and so are the
full generator's filenames (whatever the DWT outcomes), given that
`pywt.wavedec(..., level=3)` returns 4 coefficient arrays and
`pywt.swt(..., level=3)` returns 3 level pairs (their documented
behaviour on a length-8 signal). -/
theorem no_duplicate_filenames :
    (∀ m : Basic.PyMath, (writeNames (Basic.basicWrites m)).Nodup) ∧
    (∀ lib : NumLib, (lib.wavedec "haar" Full.sig8 3).length = 4 →
      (lib.swt "haar" Full.sig8 3).length = 3 →
      (writeNames (Full.fullGen lib).1).Nodup) := by
  constructor
  · intro m
    simp only [Basic.basicWrites, Basic.generate_haar_reference, Basic.generate_fft_reference,
      Basic.generate_wavelet_filters, Basic.generate_test_parameters, writeNames,
      List.map_append, List.map_cons, List.map_nil, List.append_assoc, List.cons_append,
      List.nil_append]
    decide
  · intro lib hw hs
    cases hh : lib.dwt "haar" Full.sig8 with
    | error e =>
      simp only [Full.fullGen, Full.generate_dwt_reference, hh, Full.generate_fft_reference,
        writeNames, List.map_append, List.map_cons, List.map_nil, List.append_nil,
        List.cons_append, List.nil_append]
      decide
    | ok ch =>
      cases hb : lib.dwt "db4" Full.sig8 with
      | error e =>
        simp only [Full.fullGen, Full.generate_dwt_reference, hh, hb,
          Full.generate_fft_reference, writeNames, List.map_append, List.map_cons,
          List.map_nil, List.append_nil, List.cons_append, List.nil_append]
        decide
      | ok cd =>
        obtain ⟨c0, c1, c2, c3, hwl⟩ :
            ∃ a b c d, lib.wavedec "haar" Full.sig8 3 = [a, b, c, d] := by
          rcases l : lib.wavedec "haar" Full.sig8 3 with
            _ | ⟨a, _ | ⟨b, _ | ⟨c, _ | ⟨d, _ | ⟨e, t⟩⟩⟩⟩⟩ <;>
            first
              | exact ⟨_, _, _, _, rfl⟩
              | (rw [l] at hw; simp at hw)
        obtain ⟨p1, p2, p3, hsl⟩ :
            ∃ a b c, lib.swt "haar" Full.sig8 3 = [a, b, c] := by
          rcases l : lib.swt "haar" Full.sig8 3 with
            _ | ⟨a, _ | ⟨b, _ | ⟨c, _ | ⟨d, t⟩⟩⟩⟩ <;>
            first
              | exact ⟨_, _, _, rfl⟩
              | (rw [l] at hs; simp at hs)
        have henum : ([c0, c1, c2, c3] : List (List ℚ)).enum =
            [(0, c0), (1, c1), (2, c2), (3, c3)] := rfl
        have henum2 : ([p1, p2, p3] : List (List ℚ × List ℚ)).enum =
            [(0, p1), (1, p2), (2, p3)] := rfl
        simp only [Full.fullGen, Full.generate_dwt_reference, hh, hb, hwl,
          Full.generate_modwt_reference, hsl, henum, henum2,
          Full.generate_fft_reference, Full.generate_cwt_reference,
          Full.generate_wavelet_filter_reference, Full.waveletNames,
          List.flatMap_cons, List.flatMap_nil, writeNames, List.map_append,
          List.map_cons, List.map_nil, List.nil_append, List.append_nil]
        refine List.Nodup.sublist
          (List.Sublist.append (List.Sublist.refl _) (special_names_sublist lib)) ?_
        decide

/-- C8 witness: with a concrete library instantiation the full
generator's filenames are pairwise distinct. -/
theorem no_duplicate_filenames_witness :
    (writeNames (Full.fullGen libW).1).Nodup :=
  no_duplicate_filenames.2 libW rfl rfl

/-- The Python `math` module of the witness runs. -/
def mW : Basic.PyMath := ⟨fun x => x, fun x => x, 0⟩

/-- C9: determinism.  In this model a generator run is a pure function
of its environment (the `math` module values for the basic generator,
the numeric library for the full one), so two runs over the same
environment perform identical write events; moreover the content a run
leaves at each name it writes is independent of the prior filesystem
state, and re-running a generator over its own output changes nothing:
re-running reproduces byte-identical files. -/
theorem run_determinism :
    (∀ (m : Basic.PyMath) (fs1 fs2 : FS) (n : String),
      n ∈ writeNames (Basic.basicWrites m) →
      applyWrites fs1 (Basic.basicWrites m) n = applyWrites fs2 (Basic.basicWrites m) n) ∧
    (∀ (lib : NumLib) (fs1 fs2 : FS) (n : String),
      n ∈ writeNames (Full.fullGen lib).1 →
      applyWrites fs1 (Full.fullGen lib).1 n = applyWrites fs2 (Full.fullGen lib).1 n) ∧
    (∀ (m : Basic.PyMath) (fs : FS),
      applyWrites (applyWrites fs (Basic.basicWrites m)) (Basic.basicWrites m) =
        applyWrites fs (Basic.basicWrites m)) ∧
    (∀ (lib : NumLib) (fs : FS),
      applyWrites (applyWrites fs (Full.fullGen lib).1) (Full.fullGen lib).1 =
        applyWrites fs (Full.fullGen lib).1) :=
  ⟨fun _ fs1 fs2 n h => applyWrites_indep fs1 fs2 _ n h,
   fun _ fs1 fs2 n h => applyWrites_indep fs1 fs2 _ n h,
   fun _ fs => applyWrites_idem fs _,
   fun _ fs => applyWrites_idem fs _⟩

/-- C9 witness: the content left at `haar_simple_input.txt` is the same
whether the output directory started empty or populated. -/
theorem run_determinism_witness :
    applyWrites (fun _ => none) (Basic.basicWrites mW) "haar_simple_input.txt" =
      applyWrites (fun _ => some []) (Basic.basicWrites mW) "haar_simple_input.txt" :=
  run_determinism.1 mW (fun _ => none) (fun _ => some []) "haar_simple_input.txt" (by decide)

theorem lastWrite_append_of_none (xs ys : List Write) (n : String)
    (h : lastWrite ys n = none) : lastWrite (xs ++ ys) n = lastWrite xs n := by
  rw [lastWrite_append, h]

theorem lastWrite_append_of_some (xs ys : List Write) (n : String) (c : List String)
    (h : lastWrite ys n = some c) : lastWrite (xs ++ ys) n = some c := by
  rw [lastWrite_append, h]

theorem save_vector_length (data : List ℚ) (h : String) (hne : h ≠ "") :
    (save_vector data (some h)).length = data.length + 1 := by
  simp [save_vector, hne]

/-- C10: both generators write the name `filter_db2_dec_lo.txt` into the
same output directory with different content — the basic one writes the
2-tap Haar low-pass (header plus 2 data lines), the full one the
external library's 4-tap Daubechies-2 decomposition low-pass (header
plus 4 data lines) — so whichever generator runs last determines the
content (and line count) at that name. -/
theorem db2_filename_collision (m : Basic.PyMath) (lib : NumLib) (fs : FS)
    (cd cd' : List ℚ × List ℚ)
    (h1 : lib.dwt "haar" Full.sig8 = Except.ok cd)
    (h2 : lib.dwt "db4" Full.sig8 = Except.ok cd')
    (h4 : (lib.wavelet "db2").dec_lo.length = 4) :
    Basic.output_dir = Full.output_dir ∧
    "filter_db2_dec_lo.txt" ∈ writeNames (Basic.basicWrites m) ∧
    "filter_db2_dec_lo.txt" ∈ writeNames (Full.fullGen lib).1 ∧
    lastWrite (Basic.basicWrites m) "filter_db2_dec_lo.txt" =
      some (save_vector [1 / m.sqrt 2, 1 / m.sqrt 2] (some "Daubechies 2 = Haar")) ∧
    lastWrite (Full.fullGen lib).1 "filter_db2_dec_lo.txt" =
      some (save_vector (lib.wavelet "db2").dec_lo (some "db2 decomposition low-pass filter")) ∧
    (save_vector [1 / m.sqrt 2, 1 / m.sqrt 2] (some "Daubechies 2 = Haar")).length = 3 ∧
    (save_vector (lib.wavelet "db2").dec_lo (some "db2 decomposition low-pass filter")).length = 5 ∧
    save_vector [1 / m.sqrt 2, 1 / m.sqrt 2] (some "Daubechies 2 = Haar") ≠
      save_vector (lib.wavelet "db2").dec_lo (some "db2 decomposition low-pass filter") ∧
    applyWrites (applyWrites fs (Basic.basicWrites m)) (Full.fullGen lib).1
        "filter_db2_dec_lo.txt" =
      some (save_vector (lib.wavelet "db2").dec_lo (some "db2 decomposition low-pass filter")) ∧
    applyWrites (applyWrites fs (Full.fullGen lib).1) (Basic.basicWrites m)
        "filter_db2_dec_lo.txt" =
      some (save_vector [1 / m.sqrt 2, 1 / m.sqrt 2] (some "Daubechies 2 = Haar")) := by
  have hbasic : lastWrite (Basic.basicWrites m) "filter_db2_dec_lo.txt" =
      some (save_vector [1 / m.sqrt 2, 1 / m.sqrt 2] (some "Daubechies 2 = Haar")) := rfl
  have hspec : lastWrite (Full.generate_special_cases lib) "filter_db2_dec_lo.txt" = none :=
    lastWrite_eq_none_of_not_mem _ _ (not_mem_special lib _ (by decide))
  have hfil : lastWrite (Full.generate_wavelet_filter_reference lib) "filter_db2_dec_lo.txt" =
      some (save_vector (lib.wavelet "db2").dec_lo
        (some "db2 decomposition low-pass filter")) := rfl
  have hfull : lastWrite (Full.fullGen lib).1 "filter_db2_dec_lo.txt" =
      some (save_vector (lib.wavelet "db2").dec_lo
        (some "db2 decomposition low-pass filter")) := by
    simp only [Full.fullGen, Full.generate_dwt_reference, h1, h2]
    rw [lastWrite_append_of_none _ _ _ hspec]
    exact lastWrite_append_of_some _ _ _ _ hfil
  have hlen1 : (save_vector [1 / m.sqrt 2, 1 / m.sqrt 2]
      (some "Daubechies 2 = Haar")).length = 3 := by
    rw [save_vector_length _ _ (by decide)]
    rfl
  have hlen2 : (save_vector (lib.wavelet "db2").dec_lo
      (some "db2 decomposition low-pass filter")).length = 5 := by
    rw [save_vector_length _ _ (by decide), h4]
  refine ⟨rfl, mem_of_lastWrite_some _ _ _ hbasic, mem_of_lastWrite_some _ _ _ hfull,
    hbasic, hfull, hlen1, hlen2, ?_, ?_, ?_⟩
  · intro he
    have hl := congrArg List.length he
    rw [hlen1, hlen2] at hl
    exact absurd hl (by norm_num)
  · simp only [applyWrites, hfull]
  · simp only [applyWrites, hbasic]

/-- C10 witness: at a concrete library whose db2 low-pass filter has 4
taps, the full generator's last write to `filter_db2_dec_lo.txt` is that
filter's file. -/
theorem db2_filename_collision_witness :
    lastWrite (Full.fullGen libW).1 "filter_db2_dec_lo.txt" =
      some (save_vector (libW.wavelet "db2").dec_lo
        (some "db2 decomposition low-pass filter")) :=
  (db2_filename_collision mW libW (fun _ => none) ([], []) ([], [])
    rfl rfl rfl).2.2.2.2.1
